import Mathlib

/-!
Verification of the NetApp Storage Pools client
(`googlecloudsdk/api_lib/netapp/storage_pools/client.py`) against its
natural-language specification.

The Python module is a thin orchestration layer: it builds request messages
from caller-supplied optional fields, submits them to a generated API stub,
optionally waits on long-running operations, and paginates list responses.
We embed the data model and the operations shallowly: generated proto
messages become structures with `Option` fields (unset = `none`), the remote
service becomes an explicit `ApiClient` record of functions, and the
collaborators that live outside this repository slice (the operation waiter,
the list pager, the update surface command, the version map) are modelled
from the specification, each marked `Modelled from the spec:` in its doc
comment.
-/

/-- The `StoragePool` proto message, restricted to the fields this client
touches (`name`, `serviceLevel`, `capacityGib`, `description`, `labels`).
A freshly constructed message has every field unset (`none`). -/
structure StoragePool where
  name : Option String := none
  serviceLevel : Option String := none
  capacityGib : Option Nat := none
  description : Option String := none
  labels : Option (List (String × String)) := none
deriving DecidableEq

/-- `StoragePool()`: a freshly constructed message, all fields unset. -/
def StoragePool.empty : StoragePool := {}

/-- `NetappProjectsLocationsStoragePoolsCreateRequest`. -/
structure NetappProjectsLocationsStoragePoolsCreateRequest where
  parent : String
  storagePoolId : String
  storagePool : StoragePool
deriving DecidableEq

/-- `NetappProjectsLocationsStoragePoolsDeleteRequest`. -/
structure NetappProjectsLocationsStoragePoolsDeleteRequest where
  name : String
deriving DecidableEq

/-- `NetappProjectsLocationsStoragePoolsPatchRequest`: the partial-update
request, carrying the updated message, the resource name, and the
comma-separated update mask. -/
structure NetappProjectsLocationsStoragePoolsPatchRequest where
  storagePool : StoragePool
  name : String
  updateMask : String
deriving DecidableEq

/-- A long-running operation handle, as returned by Create/Delete/Patch;
the client only ever reads its `name`. -/
structure Operation where
  name : String
deriving DecidableEq

/-- Status of a long-running operation as observed by one poll
(spec §3: tagged union Pending / Done(Payload) / Failed(ErrorInfo)). -/
inductive OperationStatus (P E : Type) where
  | pending
  | done (p : P)
  | failed (e : E)
deriving DecidableEq

/-- Outcome of waiting on an operation, together with the number of polls
performed: the payload on success, `opError` when the operation failed
(the raised `waiter.OperationError`), `timeout` when the configured
maximum number of polls was exhausted (the raised `TimeoutError`). -/
inductive WaitResult (P E : Type) where
  | success (p : P) (polls : Nat)
  | opError (e : E) (polls : Nat)
  | timeout (polls : Nat)
deriving DecidableEq

/-- Number of polls recorded in a `WaitResult`. -/
def WaitResult.polls {P E : Type} : WaitResult P E → Nat
  | .success _ n => n
  | .opError _ n => n
  | .timeout n => n

/-- Modelled from the spec: `googlecloudsdk.api_lib.util.waiter` is not under
`src/`. Spec §4.1: poll the remote status endpoint; if Pending, retry; if
Done, return the Payload; if Failed, raise `OperationError` immediately
without further retries; raise `TimeoutError` when the configured maximum
wait window is exhausted without a terminal state. `poll i` is the status
observed by the `(i+1)`-th poll; `fuel` is the number of polls remaining. -/
def waitAux {P E : Type} (poll : Nat → OperationStatus P E) : Nat → Nat → WaitResult P E
  | i, 0 => .timeout i
  | i, fuel + 1 =>
    match poll i with
    | .done p => .success p (i + 1)
    | .failed e => .opError e (i + 1)
    | .pending => waitAux poll (i + 1) fuel

/-- Modelled from the spec: `waiter.WaitFor` with a
`CloudOperationPollerNoResources` is not under `src/`; see `waitAux` for the
polling loop it runs. `maxPolls` is the configured maximum wait window,
counted in polls. -/
def WaitFor {P E : Type} (poll : Nat → OperationStatus P E) (maxPolls : Nat) : WaitResult P E :=
  waitAux poll 0 maxPolls

/-- The generated API stub `self.client.projects_locations_storagePools`
together with the operations service, as an explicit record of functions:
`createOp`/`deleteOp`/`patchOp` are the Create/Delete/Patch RPCs (each
returning the accepted operation), and `pollOperation name i` is the status
the operations service reports for operation `name` on its `(i+1)`-th poll.
`maxPolls` is the waiter's configured maximum wait window. -/
structure ApiClient where
  createOp : NetappProjectsLocationsStoragePoolsCreateRequest → Operation
  deleteOp : NetappProjectsLocationsStoragePoolsDeleteRequest → Operation
  patchOp : NetappProjectsLocationsStoragePoolsPatchRequest → Operation
  pollOperation : String → Nat → OperationStatus StoragePool String
  maxPolls : Nat

/-- `StoragePoolsClient.WaitForOperation`: waits on the long-running
operation named `operation_ref` until it reaches a terminal state. -/
def StoragePoolsClient.WaitForOperation (client : ApiClient) (operation_ref : String) :
    WaitResult StoragePool String :=
  WaitFor (client.pollOperation operation_ref) client.maxPolls

/-- Result of a mutating call: the raw operation when `async_` was set,
otherwise the waiter's outcome. -/
inductive MutationResult where
  | asyncOp (op : Operation)
  | synced (r : WaitResult StoragePool String)
deriving DecidableEq

/-- Polls of the status endpoint performed by a mutating call: none in the
asynchronous case, the waiter's count otherwise. -/
def MutationResult.pollsPerformed : MutationResult → Nat
  | .asyncOp _ => 0
  | .synced r => r.polls

/-- `StoragePoolsClient.CreateStoragePool`: builds the create request,
submits it, and either returns the accepted operation (async) or waits. -/
def StoragePoolsClient.CreateStoragePool (client : ApiClient) (parent storagePoolId : String)
    (async_ : Bool) (config : StoragePool) : MutationResult :=
  let request : NetappProjectsLocationsStoragePoolsCreateRequest :=
    ⟨parent, storagePoolId, config⟩
  let create_op := client.createOp request
  if async_ then .asyncOp create_op
  else .synced (StoragePoolsClient.WaitForOperation client create_op.name)

/-- `StoragePoolsClient.ParseStoragePoolConfig`: builds the create request
body from the command-line arguments, assigning every field of a fresh
message unconditionally (also when the argument is `None`). -/
def StoragePoolsClient.ParseStoragePoolConfig (name : Option String := none)
    (service_level : Option String := none) (capacity : Option Nat := none)
    (description : Option String := none)
    (labels : Option (List (String × String)) := none) : StoragePool :=
  let storage_pool := StoragePool.empty
  { storage_pool with
    name := name
    serviceLevel := service_level
    capacityGib := capacity
    description := description
    labels := labels }

/-- `StoragePoolsClient._DeleteStoragePool`: submits the delete request and
either returns the accepted operation (async) or waits. -/
def StoragePoolsClient.DeleteStoragePoolRequestCall (client : ApiClient) (async_ : Bool)
    (request : NetappProjectsLocationsStoragePoolsDeleteRequest) : MutationResult :=
  let delete_op := client.deleteOp request
  if async_ then .asyncOp delete_op
  else .synced (StoragePoolsClient.WaitForOperation client delete_op.name)

/-- `StoragePoolsClient.DeleteStoragePool`: builds the delete request from
the resource name and delegates to `_DeleteStoragePool`. -/
def StoragePoolsClient.DeleteStoragePool (client : ApiClient) (name : String)
    (async_ : Bool) : MutationResult :=
  StoragePoolsClient.DeleteStoragePoolRequestCall client async_ ⟨name⟩

/-- `AlphaStoragePoolsAdapter.ParseUpdatedStoragePoolConfig`: writes each
argument that is not `None` into the given storage pool message
(`capacityGib`, then `description`, then `labels`) and returns it; fields
whose argument is `None` are left untouched. -/
def AlphaStoragePoolsAdapter.ParseUpdatedStoragePoolConfig (storagepool_config : StoragePool)
    (description : Option String := none) (labels : Option (List (String × String)) := none)
    (capacity : Option Nat := none) : StoragePool :=
  let c1 := match capacity with
    | some c => { storagepool_config with capacityGib := some c }
    | none => storagepool_config
  let c2 := match description with
    | some d => { c1 with description := some d }
    | none => c1
  match labels with
  | some l => { c2 with labels := some l }
  | none => c2

/-- `StoragePoolsClient.ParseUpdatedStoragePoolConfig`: delegates to the
adapter's builder. -/
def StoragePoolsClient.ParseUpdatedStoragePoolConfig (storagepool_config : StoragePool)
    (capacity : Option Nat := none) (description : Option String := none)
    (labels : Option (List (String × String)) := none) : StoragePool :=
  AlphaStoragePoolsAdapter.ParseUpdatedStoragePoolConfig storagepool_config
    description labels capacity

/-- `AlphaStoragePoolsAdapter.UpdateStoragePool`: builds the Patch request
from the updated message, the resource name and the update mask, submits it,
and returns the sent request together with the accepted operation. -/
def AlphaStoragePoolsAdapter.UpdateStoragePool (client : ApiClient) (name : String)
    (storagepool_config : StoragePool) (update_mask : String) :
    NetappProjectsLocationsStoragePoolsPatchRequest × Operation :=
  let update_request : NetappProjectsLocationsStoragePoolsPatchRequest :=
    ⟨storagepool_config, name, update_mask⟩
  (update_request, client.patchOp update_request)

/-- `StoragePoolsClient.UpdateStoragePool`: submits the Patch request via
the adapter and either returns the accepted operation (async) or waits. -/
def StoragePoolsClient.UpdateStoragePool (client : ApiClient) (name : String)
    (storagepool_config : StoragePool) (update_mask : String) (async_ : Bool) :
    MutationResult :=
  let update_op := (AlphaStoragePoolsAdapter.UpdateStoragePool client name
    storagepool_config update_mask).2
  if async_ then .asyncOp update_op
  else .synced (StoragePoolsClient.WaitForOperation client update_op.name)

/-- Modelled from the spec: the update surface command that computes the
update mask is not under `src/`. Spec §4.2: the mask lists exactly the
fields the caller explicitly provided (non-`None`). -/
def UpdateMaskEntries (capacity : Option Nat) (description : Option String)
    (labels : Option (List (String × String))) : List String :=
  (if capacity.isSome then ["capacity"] else []) ++
  (if description.isSome then ["description"] else []) ++
  (if labels.isSome then ["labels"] else [])

/-- Modelled from the spec: the update surface command is not under `src/`.
Spec §4.2: it builds the message with only the explicitly provided
(non-`None`) fields set — so it starts from a fresh message — computes the
mask from the provided fields, and sends the Patch request through the
adapter. Returns the sent request and the accepted operation. -/
def RunUpdateCommand (client : ApiClient) (name : String) (capacity : Option Nat)
    (description : Option String) (labels : Option (List (String × String))) :
    NetappProjectsLocationsStoragePoolsPatchRequest × Operation :=
  let config := AlphaStoragePoolsAdapter.ParseUpdatedStoragePoolConfig StoragePool.empty
    description labels capacity
  let update_mask := String.intercalate "," (UpdateMaskEntries capacity description labels)
  AlphaStoragePoolsAdapter.UpdateStoragePool client name config update_mask

/-- One page of a paginated List response: the `storagePools` it carries and
the `unreachable` locations it reports. The remote source is a list of such
pages; the response to a request whose page token is unset is the first
page, and a page carries a continuation token exactly when a further page
follows it. -/
structure ListPage where
  storagePools : List StoragePool
  unreachable : List String
deriving DecidableEq

/-- Pools carried by all pages together. -/
def allPools : List ListPage → List StoragePool
  | [] => []
  | page :: rest => page.storagePools ++ allPools rest

/-- Unreachable locations reported across all pages. -/
def allUnreachable : List ListPage → List String
  | [] => []
  | page :: rest => page.unreachable ++ allUnreachable rest

/-- Total number of pools held by the paginated source. -/
def totalPools (pages : List ListPage) : Nat := (allPools pages).length

/-- Modelled from the spec: `apitools list_pager.YieldFromList` is not under
`src/`. Spec §4.3: request pages from the remote service until no
continuation token remains; unlimited enumeration. Returns the items
yielded and the number of page requests issued. -/
def yieldAllPages : List ListPage → List StoragePool × Nat
  | [] => ([], 1)
  | [page] => (page.storagePools, 1)
  | page :: next :: rest =>
    let r := yieldAllPages (next :: rest)
    (page.storagePools ++ r.1, r.2 + 1)

/-- Modelled from the spec: `apitools list_pager.YieldFromList` is not under
`src/`. Spec §4.3 with a result-count limit: request pages until the limit
is satisfied or no continuation token remains, issuing no more page
requests than necessary. Returns the items yielded and the number of page
requests issued. -/
def yieldLimitedPages : List ListPage → Nat → List StoragePool × Nat
  | _, 0 => ([], 0)
  | [], _ + 1 => ([], 1)
  | page :: rest, l + 1 =>
    if page.storagePools.length ≥ l + 1 then (page.storagePools.take (l + 1), 1)
    else
      match rest with
      | [] => (page.storagePools, 1)
      | next :: more =>
        let r := yieldLimitedPages (next :: more) (l + 1 - page.storagePools.length)
        (page.storagePools ++ r.1, r.2 + 1)

/-- Modelled from the spec: `apitools list_pager.YieldFromList` is not under
`src/`; dispatches on whether a limit was supplied. -/
def YieldFromList (pages : List ListPage) (limit : Option Nat) : List StoragePool × Nat :=
  match limit with
  | none => yieldAllPages pages
  | some l => yieldLimitedPages pages l

/-- `log.warning('Location {} may be unreachable.'.format(location))`. -/
def warningFor (location : String) : String :=
  "Location " ++ location ++ " may be unreachable."

/-- What a call to `ListStoragePools` produces once the returned generator
is exhausted: the warnings logged, the pools yielded, and the total number
of List requests issued to the remote service. -/
structure ListOutcome where
  warnings : List String
  storagePools : List StoragePool
  requests : Nat
deriving DecidableEq

/-- `StoragePoolsClient.ListStoragePools`: issues one List request up front
and logs a warning per unreachable location of that response, then
delegates enumeration to `list_pager.YieldFromList` (which re-issues page
requests starting from the first page). `requests` counts the up-front
request plus the pager's page requests. -/
def StoragePoolsClient.ListStoragePools (pages : List ListPage) (limit : Option Nat) :
    ListOutcome :=
  let response := pages.headD ⟨[], []⟩
  let warnings := response.unreachable.map warningFor
  let r := YieldFromList pages limit
  ⟨warnings, r.1, r.2 + 1⟩

/-- Least number of leading page requests whose pages carry at least
`limit` pools — the number of page requests necessary to satisfy the limit
(all pages when the source holds fewer than `limit` pools). -/
def minRequestsNeeded : List ListPage → Nat → Nat
  | _, 0 => 0
  | [], _ + 1 => 0
  | page :: rest, l + 1 =>
    if page.storagePools.length ≥ l + 1 then 1
    else 1 + minRequestsNeeded rest (l + 1 - page.storagePools.length)

/-- `base.ReleaseTrack`: the release tracks a command can target. -/
inductive ReleaseTrack where
  | ALPHA
  | BETA
  | GA
deriving DecidableEq

/-- Modelled from the spec: `googlecloudsdk.api_lib.netapp.util.VERSION_MAP`
is not under `src/`; it names the API version of each release track. -/
def VERSION_MAP : ReleaseTrack → String
  | .ALPHA => "v1alpha1"
  | .BETA => "v1beta1"
  | .GA => "v1"

/-- The state `StoragePoolsClient.__init__` establishes on success: the
chosen adapter, recorded by its release track. -/
structure AdapterState where
  release_track : ReleaseTrack
deriving DecidableEq

/-- `StoragePoolsClient.__init__`: selects the Alpha adapter for the ALPHA
release track and raises `ValueError('[...] is not a valid API version.')`
for every other track. The second component counts the network calls the
constructor makes: none — adapter construction only builds the client stub
and the messages module. -/
def StoragePoolsClientInit (release_track : ReleaseTrack) :
    Except String AdapterState × Nat :=
  match release_track with
  | .ALPHA => (.ok ⟨.ALPHA⟩, 0)
  | rt => (.error ("[" ++ VERSION_MAP rt ++ "] is not a valid API version."), 0)

/-- A storage pool that only carries a name — the shape of the items served
by the concrete paginated sources below. -/
def mkPool (n : String) : StoragePool := { name := some n }

/-- A paginated source holding five pools on a single page, none of its
locations unreachable. -/
def fivePoolsOnePage : List ListPage :=
  [⟨[mkPool "pool-1", mkPool "pool-2", mkPool "pool-3", mkPool "pool-4", mkPool "pool-5"], []⟩]

/-- A paginated source of two pages whose second page reports an
unreachable location. -/
def unreachableOnSecondPage : List ListPage :=
  [⟨[mkPool "pool-a"], []⟩, ⟨[mkPool "pool-b"], ["zone-x"]⟩]

/-- A client whose operation polls report Pending twice and then Done. -/
def clientPendingTwice : ApiClient where
  createOp := fun _ => ⟨"operations/c"⟩
  deleteOp := fun _ => ⟨"operations/d"⟩
  patchOp := fun _ => ⟨"operations/p"⟩
  pollOperation := fun _ i => if i < 2 then .pending else .done (mkPool "pool-done")
  maxPolls := 5

/-- A client whose operation polls report Failed from the first poll on. -/
def clientFailsFirst : ApiClient where
  createOp := fun _ => ⟨"operations/c"⟩
  deleteOp := fun _ => ⟨"operations/d"⟩
  patchOp := fun _ => ⟨"operations/p"⟩
  pollOperation := fun _ _ => .failed "pool quota exceeded"
  maxPolls := 4

/-- A client whose operation polls report Pending forever. -/
def clientForeverPending : ApiClient where
  createOp := fun _ => ⟨"operations/c"⟩
  deleteOp := fun _ => ⟨"operations/d"⟩
  patchOp := fun _ => ⟨"operations/p"⟩
  pollOperation := fun _ _ => .pending
  maxPolls := 4

/-- A client whose operations are Done already on the first poll. -/
def clientDoneAtOnce : ApiClient where
  createOp := fun _ => ⟨"operations/create-1"⟩
  deleteOp := fun _ => ⟨"operations/delete-1"⟩
  patchOp := fun _ => ⟨"operations/patch-1"⟩
  pollOperation := fun _ _ => .done (mkPool "pool-resolved")
  maxPolls := 3

/-! ### Helper lemmas -/

theorem waitAux_pending_step {P E : Type} (poll : Nat → OperationStatus P E) (i fuel : Nat)
    (h : poll i = .pending) : waitAux poll i (fuel + 1) = waitAux poll (i + 1) fuel := by
  simp [waitAux, h]

theorem waitAux_done_step {P E : Type} (poll : Nat → OperationStatus P E) (i fuel : Nat)
    {p : P} (h : poll i = .done p) : waitAux poll i (fuel + 1) = .success p (i + 1) := by
  simp [waitAux, h]

theorem waitAux_failed_step {P E : Type} (poll : Nat → OperationStatus P E) (i fuel : Nat)
    {e : E} (h : poll i = .failed e) : waitAux poll i (fuel + 1) = .opError e (i + 1) := by
  simp [waitAux, h]

theorem waitAux_pending_forever {P E : Type} (poll : Nat → OperationStatus P E)
    (h : ∀ j, poll j = .pending) :
    ∀ fuel i, waitAux poll i fuel = .timeout (i + fuel) := by
  intro fuel
  induction fuel with
  | zero => intro i; simp [waitAux]
  | succ n ih =>
    intro i
    rw [waitAux_pending_step poll i n (h i), ih (i + 1)]
    congr 1
    omega

theorem WaitFor_done_first {P E : Type} (poll : Nat → OperationStatus P E) (m : Nat)
    {p : P} (hm : 0 < m) (h : poll 0 = .done p) : WaitFor poll m = .success p 1 := by
  obtain ⟨f, rfl⟩ : ∃ f, m = f + 1 := ⟨m - 1, by omega⟩
  unfold WaitFor
  exact waitAux_done_step poll 0 f h

theorem totalPools_cons (page : ListPage) (rest : List ListPage) :
    totalPools (page :: rest) = page.storagePools.length + totalPools rest := by
  simp [totalPools, allPools]

theorem yieldAllPages_items (pages : List ListPage) :
    (yieldAllPages pages).1 = allPools pages := by
  induction pages with
  | nil => simp [yieldAllPages, allPools]
  | cons page rest ih =>
    cases rest with
    | nil => simp [yieldAllPages, allPools]
    | cons next more => simp [yieldAllPages, allPools, ih]

theorem yieldLimitedPages_take (page : ListPage) (rest : List ListPage) (l : Nat)
    (h : page.storagePools.length ≥ l + 1) :
    yieldLimitedPages (page :: rest) (l + 1) = (page.storagePools.take (l + 1), 1) := by
  cases rest <;> simp only [yieldLimitedPages, if_pos h]

theorem yieldLimitedPages_last (page : ListPage) (l : Nat)
    (h : ¬ page.storagePools.length ≥ l + 1) :
    yieldLimitedPages [page] (l + 1) = (page.storagePools, 1) := by
  simp only [yieldLimitedPages, if_neg h]

theorem yieldLimitedPages_step (page next : ListPage) (more : List ListPage) (l : Nat)
    (h : ¬ page.storagePools.length ≥ l + 1) :
    yieldLimitedPages (page :: next :: more) (l + 1) =
      (page.storagePools ++
        (yieldLimitedPages (next :: more) (l + 1 - page.storagePools.length)).1,
       (yieldLimitedPages (next :: more) (l + 1 - page.storagePools.length)).2 + 1) := by
  simp only [yieldLimitedPages, if_neg h]

theorem minRequestsNeeded_one (page : ListPage) (rest : List ListPage) (l : Nat)
    (h : page.storagePools.length ≥ l + 1) :
    minRequestsNeeded (page :: rest) (l + 1) = 1 := by
  simp only [minRequestsNeeded, if_pos h]

theorem minRequestsNeeded_step (page : ListPage) (rest : List ListPage) (l : Nat)
    (h : ¬ page.storagePools.length ≥ l + 1) :
    minRequestsNeeded (page :: rest) (l + 1) =
      1 + minRequestsNeeded rest (l + 1 - page.storagePools.length) := by
  simp only [minRequestsNeeded, if_neg h]

theorem yieldLimitedPages_spec (pages : List ListPage) :
    ∀ l, 0 < l → l ≤ totalPools pages →
      (yieldLimitedPages pages l).1.length = l ∧
      (yieldLimitedPages pages l).2 = minRequestsNeeded pages l := by
  induction pages with
  | nil =>
    intro l hl hle
    simp [totalPools, allPools] at hle
    omega
  | cons page rest ih =>
    intro l hl hle
    obtain ⟨l', rfl⟩ : ∃ l', l = l' + 1 := ⟨l - 1, by omega⟩
    rw [totalPools_cons] at hle
    by_cases hlen : page.storagePools.length ≥ l' + 1
    · rw [yieldLimitedPages_take page rest l' hlen, minRequestsNeeded_one page rest l' hlen]
      constructor
      · simp only [List.length_take]
        omega
      · rfl
    · cases rest with
      | nil =>
        exfalso
        simp [totalPools, allPools] at hle
        omega
      | cons next more =>
        have hrec := ih (l' + 1 - page.storagePools.length) (by omega) (by omega)
        rw [yieldLimitedPages_step page next more l' hlen,
            minRequestsNeeded_step page (next :: more) l' hlen]
        constructor
        · simp only [List.length_append, hrec.1]
          omega
        · rw [hrec.2]
          omega

/-! ### Claim theorems -/

/-- C10: For every combination of arguments (each possibly `None`),
`ParseStoragePoolConfig` returns a fresh `StoragePool` message whose
`name`, `serviceLevel`, `capacityGib`, `description` and `labels` fields
equal exactly the corresponding arguments; omitted (`None`) arguments are
assigned unconditionally rather than skipped. -/
theorem ParseStoragePoolConfig_assigns_every_field (name service_level : Option String)
    (capacity : Option Nat) (description : Option String)
    (labels : Option (List (String × String))) :
    StoragePoolsClient.ParseStoragePoolConfig name service_level capacity description labels =
      ⟨name, service_level, capacity, description, labels⟩ := rfl

/-- C9: For every input storage-pool message and every combination of
optional `capacity`, `description` and `labels` arguments,
`ParseUpdatedStoragePoolConfig` returns the given message with exactly the
non-`None` arguments written into `capacityGib`, `description` and
`labels`, and every other field — including the fields whose argument is
`None` — left unchanged. -/
theorem ParseUpdatedStoragePoolConfig_writes_only_given_fields (cfg : StoragePool)
    (capacity : Option Nat) (description : Option String)
    (labels : Option (List (String × String))) :
    StoragePoolsClient.ParseUpdatedStoragePoolConfig cfg capacity description labels =
      { cfg with
        capacityGib := capacity.or cfg.capacityGib
        description := description.or cfg.description
        labels := labels.or cfg.labels } := by
  cases capacity <;> cases description <;> cases labels <;> rfl

/-- C1: For every update call in which only `description` is provided, the
Patch request built and sent has `description` set, `capacityGib` and
`labels` unset, and its `updateMask` is exactly `"description"`; the
operation returned is the one the service answered with for that request. -/
theorem UpdateStoragePool_description_only_request (client : ApiClient)
    (name desc : String) :
    ((RunUpdateCommand client name none (some desc) none).1.storagePool.description
        = some desc) ∧
    (RunUpdateCommand client name none (some desc) none).1.storagePool.capacityGib = none ∧
    (RunUpdateCommand client name none (some desc) none).1.storagePool.labels = none ∧
    (RunUpdateCommand client name none (some desc) none).1.updateMask = "description" ∧
    (RunUpdateCommand client name none (some desc) none).2 =
      client.patchOp (RunUpdateCommand client name none (some desc) none).1 :=
  ⟨rfl, rfl, rfl, rfl, rfl⟩

/-- C7: Constructing `StoragePoolsClient` succeeds for the supported ALPHA
release track, fails with the `is not a valid API version` error for every
other track, and makes no network call either way. -/
theorem StoragePoolsClientInit_validates_release_track (release_track : ReleaseTrack) :
    (release_track = .ALPHA → (StoragePoolsClientInit release_track).1 = .ok ⟨.ALPHA⟩) ∧
    (release_track ≠ .ALPHA →
      (StoragePoolsClientInit release_track).1 =
        .error ("[" ++ VERSION_MAP release_track ++ "] is not a valid API version.")) ∧
    (StoragePoolsClientInit release_track).2 = 0 := by
  cases release_track <;> simp [StoragePoolsClientInit]

/-- C7 witness: the BETA track is rejected with the version error and the
ALPHA track is accepted. -/
theorem StoragePoolsClientInit_validates_release_track_witness :
    (StoragePoolsClientInit .BETA).1 = .error "[v1beta1] is not a valid API version." ∧
    (StoragePoolsClientInit .ALPHA).1 = .ok ⟨.ALPHA⟩ := by
  refine ⟨?_, (StoragePoolsClientInit_validates_release_track .ALPHA).1 rfl⟩
  rw [(StoragePoolsClientInit_validates_release_track .BETA).2.1 (by decide)]
  rfl

/-- C4: For every operation whose injected status sequence starts
[Pending, Pending, Done(p)], `WaitForOperation` returns the payload `p`
after exactly 3 polls of the status endpoint, provided the configured wait
window allows at least 3 polls. -/
theorem WaitForOperation_returns_after_three_polls (client : ApiClient)
    (operation_ref : String) (p : StoragePool)
    (h0 : client.pollOperation operation_ref 0 = .pending)
    (h1 : client.pollOperation operation_ref 1 = .pending)
    (h2 : client.pollOperation operation_ref 2 = .done p)
    (hm : 3 ≤ client.maxPolls) :
    StoragePoolsClient.WaitForOperation client operation_ref = .success p 3 := by
  obtain ⟨f, hf⟩ : ∃ f, client.maxPolls = f + 3 := ⟨client.maxPolls - 3, by omega⟩
  unfold StoragePoolsClient.WaitForOperation WaitFor
  rw [hf, show f + 3 = (f + 2) + 1 from rfl,
      waitAux_pending_step (client.pollOperation operation_ref) 0 (f + 2) h0,
      show f + 2 = (f + 1) + 1 from rfl,
      waitAux_pending_step (client.pollOperation operation_ref) 1 (f + 1) h1,
      waitAux_done_step (client.pollOperation operation_ref) 2 f h2]

/-- C4 witness: against a client pending on the first two polls and done on
the third, the waiter returns the payload with exactly 3 polls. -/
theorem WaitForOperation_returns_after_three_polls_witness :
    StoragePoolsClient.WaitForOperation clientPendingTwice "operations/c" =
      .success (mkPool "pool-done") 3 :=
  WaitForOperation_returns_after_three_polls clientPendingTwice "operations/c"
    (mkPool "pool-done") rfl rfl rfl (by decide)

/-- C5: For every operation whose first observed status is Failed(e),
`WaitForOperation` raises `OperationError` carrying `e` after exactly 1
poll — the failure is not retried. -/
theorem WaitForOperation_fails_after_one_poll (client : ApiClient)
    (operation_ref : String) (e : String)
    (h0 : client.pollOperation operation_ref 0 = .failed e)
    (hm : 0 < client.maxPolls) :
    StoragePoolsClient.WaitForOperation client operation_ref = .opError e 1 := by
  obtain ⟨f, hf⟩ : ∃ f, client.maxPolls = f + 1 := ⟨client.maxPolls - 1, by omega⟩
  unfold StoragePoolsClient.WaitForOperation WaitFor
  rw [hf, waitAux_failed_step (client.pollOperation operation_ref) 0 f h0]

/-- C5 witness: against a client whose operation fails on the first poll,
the waiter surfaces the error with exactly 1 poll. -/
theorem WaitForOperation_fails_after_one_poll_witness :
    StoragePoolsClient.WaitForOperation clientFailsFirst "operations/c" =
      .opError "pool quota exceeded" 1 :=
  WaitForOperation_fails_after_one_poll clientFailsFirst "operations/c"
    "pool quota exceeded" rfl (by decide)

/-- C6: For every operation whose polled status never leaves Pending,
`WaitForOperation` terminates once the configured maximum wait window
(`maxPolls` polls) is exhausted, raising `TimeoutError` rather than
looping forever. -/
theorem WaitForOperation_times_out_when_never_done (client : ApiClient)
    (operation_ref : String)
    (h : ∀ i, client.pollOperation operation_ref i = .pending) :
    StoragePoolsClient.WaitForOperation client operation_ref =
      .timeout client.maxPolls := by
  unfold StoragePoolsClient.WaitForOperation WaitFor
  rw [waitAux_pending_forever (client.pollOperation operation_ref) h client.maxPolls 0]
  congr 1
  omega

/-- C6 witness: against a client pending forever with a wait window of 4
polls, the waiter times out after 4 polls. -/
theorem WaitForOperation_times_out_when_never_done_witness :
    StoragePoolsClient.WaitForOperation clientForeverPending "operations/c" = .timeout 4 :=
  WaitForOperation_times_out_when_never_done clientForeverPending "operations/c"
    (fun _ => rfl)

/-- C8: For create, delete and update alike: with the async flag set the
call returns the raw accepted operation and performs no poll; with the
flag unset it hands the operation to the waiter and returns the resolved
payload of the completed operation (here: an operation whose first poll
reports Done). -/
theorem mutations_respect_async_flag (client : ApiClient)
    (parent storagePoolId poolName updName update_mask : String)
    (config updConfig : StoragePool) (pc pd pu : StoragePool)
    (hm : 0 < client.maxPolls)
    (hc : client.pollOperation
      (client.createOp ⟨parent, storagePoolId, config⟩).name 0 = .done pc)
    (hd : client.pollOperation (client.deleteOp ⟨poolName⟩).name 0 = .done pd)
    (hu : client.pollOperation
      (client.patchOp ⟨updConfig, updName, update_mask⟩).name 0 = .done pu) :
    (StoragePoolsClient.CreateStoragePool client parent storagePoolId true config =
        .asyncOp (client.createOp ⟨parent, storagePoolId, config⟩)) ∧
    (StoragePoolsClient.CreateStoragePool client parent storagePoolId true
        config).pollsPerformed = 0 ∧
    (StoragePoolsClient.CreateStoragePool client parent storagePoolId false config =
        .synced (.success pc 1)) ∧
    (StoragePoolsClient.DeleteStoragePool client poolName true =
        .asyncOp (client.deleteOp ⟨poolName⟩)) ∧
    (StoragePoolsClient.DeleteStoragePool client poolName true).pollsPerformed = 0 ∧
    (StoragePoolsClient.DeleteStoragePool client poolName false =
        .synced (.success pd 1)) ∧
    (StoragePoolsClient.UpdateStoragePool client updName updConfig update_mask true =
        .asyncOp (client.patchOp ⟨updConfig, updName, update_mask⟩)) ∧
    (StoragePoolsClient.UpdateStoragePool client updName updConfig update_mask
        true).pollsPerformed = 0 ∧
    (StoragePoolsClient.UpdateStoragePool client updName updConfig update_mask false =
        .synced (.success pu 1)) := by
  refine ⟨rfl, rfl, ?_, rfl, rfl, ?_, rfl, rfl, ?_⟩
  · exact congrArg MutationResult.synced
      (WaitFor_done_first (client.pollOperation
        (client.createOp ⟨parent, storagePoolId, config⟩).name) client.maxPolls hm hc)
  · exact congrArg MutationResult.synced
      (WaitFor_done_first (client.pollOperation
        (client.deleteOp ⟨poolName⟩).name) client.maxPolls hm hd)
  · exact congrArg MutationResult.synced
      (WaitFor_done_first (client.pollOperation
        (client.patchOp ⟨updConfig, updName, update_mask⟩).name) client.maxPolls hm hu)

/-- C8 witness: against a client whose operations are done on the first
poll, create with the async flag returns the raw operation, create and
delete without it return the resolved payload, and update with the flag
returns the raw patch operation. -/
theorem mutations_respect_async_flag_witness :
    (StoragePoolsClient.CreateStoragePool clientDoneAtOnce "projects/p/locations/l"
        "pool1" true StoragePool.empty = .asyncOp ⟨"operations/create-1"⟩) ∧
    (StoragePoolsClient.CreateStoragePool clientDoneAtOnce "projects/p/locations/l"
        "pool1" false StoragePool.empty = .synced (.success (mkPool "pool-resolved") 1)) ∧
    (StoragePoolsClient.DeleteStoragePool clientDoneAtOnce "pools/pool1" false =
        .synced (.success (mkPool "pool-resolved") 1)) ∧
    (StoragePoolsClient.UpdateStoragePool clientDoneAtOnce "pools/pool1"
        StoragePool.empty "description" true = .asyncOp ⟨"operations/patch-1"⟩) := by
  have h := mutations_respect_async_flag clientDoneAtOnce "projects/p/locations/l"
    "pool1" "pools/pool1" "pools/pool1" "description" StoragePool.empty StoragePool.empty
    (mkPool "pool-resolved") (mkPool "pool-resolved") (mkPool "pool-resolved")
    (by decide) rfl rfl rfl
  exact ⟨h.1, h.2.2.1, h.2.2.2.2.2.1, h.2.2.2.2.2.2.1⟩

/-- C2 counterexample: over a single-page source of 5 pools with limit 2,
`ListStoragePools` yields exactly 2 items but issues 2 List requests where
1 page request is necessary — the extra one is the up-front
unreachable-location check — so it does issue more page requests than
necessary to satisfy the limit. -/
theorem ListStoragePools_limit_two_extra_request :
    (StoragePoolsClient.ListStoragePools fivePoolsOnePage (some 2)).storagePools.length
      = 2 ∧
    totalPools fivePoolsOnePage = 5 ∧
    minRequestsNeeded fivePoolsOnePage 2 = 1 ∧
    (StoragePoolsClient.ListStoragePools fivePoolsOnePage (some 2)).requests = 2 ∧
    ¬ ((StoragePoolsClient.ListStoragePools fivePoolsOnePage (some 2)).requests ≤
        minRequestsNeeded fivePoolsOnePage 2) := by
  decide

/-- C2 (amended): over any paginated source holding 5 pools,
`ListStoragePools` with limit 2 yields exactly 2 items, and issues the
minimal number of page requests needed to satisfy the limit plus the one
up-front unreachable-location request. -/
theorem ListStoragePools_limit_two_of_five (pages : List ListPage)
    (h : totalPools pages = 5) :
    (StoragePoolsClient.ListStoragePools pages (some 2)).storagePools.length = 2 ∧
    (StoragePoolsClient.ListStoragePools pages (some 2)).requests =
      minRequestsNeeded pages 2 + 1 := by
  have hs := yieldLimitedPages_spec pages 2 (by omega) (by omega)
  exact ⟨by simp [StoragePoolsClient.ListStoragePools, YieldFromList, hs.1],
         by simp [StoragePoolsClient.ListStoragePools, YieldFromList, hs.2]⟩

/-- C2 witness: the amended statement at the single-page 5-pool source. -/
theorem ListStoragePools_limit_two_of_five_witness :
    totalPools fivePoolsOnePage = 5 ∧
    ((StoragePoolsClient.ListStoragePools fivePoolsOnePage (some 2)).storagePools.length
        = 2 ∧
     (StoragePoolsClient.ListStoragePools fivePoolsOnePage (some 2)).requests =
       minRequestsNeeded fivePoolsOnePage 2 + 1) :=
  ⟨rfl, ListStoragePools_limit_two_of_five fivePoolsOnePage rfl⟩

/-- C3 counterexample: over a two-page source whose second page reports the
unreachable location `zone-x`, `ListStoragePools` yields every pool but
emits no warning at all — not one warning per unreachable location
reported by the service on any page. -/
theorem ListStoragePools_ignores_later_unreachable :
    allUnreachable unreachableOnSecondPage = ["zone-x"] ∧
    (StoragePoolsClient.ListStoragePools unreachableOnSecondPage none).storagePools =
      allPools unreachableOnSecondPage ∧
    (StoragePoolsClient.ListStoragePools unreachableOnSecondPage none).warnings = [] ∧
    ¬ ((StoragePoolsClient.ListStoragePools unreachableOnSecondPage none).warnings.length
        = (allUnreachable unreachableOnSecondPage).length) := by
  decide

/-- C3 (amended): `ListStoragePools` emits exactly one warning per
unreachable location reported by the initial List response (the first
page) — locations reported unreachable on later pages are not warned
about — and still yields every pool of every page without failing the
enumeration. -/
theorem ListStoragePools_warns_per_first_response_unreachable (pages : List ListPage) :
    (StoragePoolsClient.ListStoragePools pages none).warnings =
      (pages.headD ⟨[], []⟩).unreachable.map warningFor ∧
    (StoragePoolsClient.ListStoragePools pages none).storagePools = allPools pages := by
  exact ⟨rfl, by simp [StoragePoolsClient.ListStoragePools, YieldFromList,
    yieldAllPages_items]⟩
